import Mathlib

/-!
Verification development for the data-preparation and period-derivation
pipeline of the SalesDashboard repository (src/app.py).

The pandas / geopandas code is shallowly embedded:

* a cell read from the delimited upload is `Option String` (`none` = a
  missing value, i.e. pandas `NaN`);
* a typed cell of the session `DataFrame` is `Cell` (text, numeric, or
  missing); numeric cells are modelled as integers — decimal integer
  literals are what the pipeline's `Year`/`Month`/measure columns carry,
  and the float printing/reparsing contract of the host library is
  reflected by `renderInt`/`parseNum` below;
* a data frame is its column-name list plus one association list
  (column name to `Cell`) per row;
* code that can raise (`KeyError` from a missing column, `ValueError`
  from `int(NaN)`) returns `Option`, with `none` for the raised case.
-/

/-- A typed cell of the session data frame: text, numeric, or missing. -/
inductive Cell where
  | str : String → Cell
  | num : Int → Cell
  | na : Cell
deriving DecidableEq

/-- Whether a cell is numeric. -/
def Cell.isNum : Cell → Bool
  | Cell.num _ => true
  | _ => false

/-- Numeric reading of a cell, as used by column sums (pandas skips
`NaN`, contributing nothing, which is the 0 case here). -/
def cellInt : Cell → Int
  | Cell.num n => n
  | _ => 0

/-- Value of a digit character, `none` for anything else. -/
def digitVal (c : Char) : Option Nat :=
  if c = '0' then some 0 else if c = '1' then some 1 else if c = '2' then some 2
  else if c = '3' then some 3 else if c = '4' then some 4 else if c = '5' then some 5
  else if c = '6' then some 6 else if c = '7' then some 7 else if c = '8' then some 8
  else if c = '9' then some 9 else none

/-- Character of a digit value below ten. -/
def digitChar (d : Nat) : Char :=
  if d = 0 then '0' else if d = 1 then '1' else if d = 2 then '2'
  else if d = 3 then '3' else if d = 4 then '4' else if d = 5 then '5'
  else if d = 6 then '6' else if d = 7 then '7' else if d = 8 then '8'
  else if d = 9 then '9' else 'X'

/-- One step of left-to-right decimal accumulation over characters. -/
def pStep (acc : Option Nat) (c : Char) : Option Nat :=
  match acc, digitVal c with
  | some a, some d => some (a * 10 + d)
  | _, _ => none

/-- Parse a non-empty all-digit character list as a natural number. -/
def parseDigits (ds : List Char) : Option Nat :=
  if ds = [] then none else ds.foldl pStep (some 0)

/-- Numeric coercion of one string, the cell-level content of
`pd.to_numeric(..., errors='coerce')`: an optional minus sign followed by
decimal digits, `none` (pandas `NaN`) otherwise. -/
def parseNum (s : String) : Option Int :=
  match s.toList with
  | [] => none
  | c :: cs =>
    if c = '-' then (parseDigits cs).map (fun k : Nat => -(k : Int))
    else (parseDigits (c :: cs)).map (fun k : Nat => (k : Int))

/-- Little-endian decimal digits of `n`, driven by explicit fuel. -/
def natDigitsRev (fuel n : Nat) : List Nat :=
  match fuel with
  | 0 => []
  | f + 1 => if n = 0 then [] else n % 10 :: natDigitsRev f (n / 10)

/-- Decimal rendering of a natural number. -/
def renderNat (n : Nat) : String :=
  if n = 0 then "0" else String.mk ((natDigitsRev n n).reverse.map digitChar)

/-- Decimal rendering of an integer, as the host library writes a numeric
cell into the delimited export. -/
def renderInt (n : Int) : String :=
  if n < 0 then String.mk ('-' :: (natDigitsRev n.natAbs n.natAbs).reverse.map digitChar)
  else renderNat n.toNat

/-- A raw field of the delimited file: the empty field is a missing value
(pandas reads it as `NaN`). -/
def readCell (s : String) : Option String :=
  if s = "" then none else some s

/-- `pd.to_numeric(cell, errors='coerce')` at one cell. -/
def to_numeric_coerce (c : Option String) : Option Int :=
  c.bind parseNum

/-- src/app.py line 144: `pd.to_numeric(df[col], errors='coerce').fillna(0)`
at one cell of a measure column. -/
def ingest_measure_cell (c : Option String) : Option Int :=
  match to_numeric_coerce c with
  | none => some 0
  | some v => some v

/-- `astype(str)` at one cell: a missing value becomes the string "nan". -/
def astype_str (c : Option String) : Option String :=
  some (c.getD "nan")

/-- `fillna(d)` at one cell of a text column. -/
def fillna_str (d : String) (c : Option String) : Option String :=
  some (c.getD d)

/-- src/app.py line 149: `df[col].astype(str).fillna('Unknown')` at one
cell of a non-measure column. -/
def ingest_dim_cell (c : Option String) : Option String :=
  fillna_str "Unknown" (astype_str c)

/-- Number of missing entries of a column. -/
def countMissing (l : List (Option Int)) : Nat :=
  (l.filter (fun c => c.isNone)).length

/-- One data-frame row: an association list from column name to cell. -/
abbrev Row := List (String × Cell)

/-- Value of a row at a column name (`Cell.na` when the key is absent;
the pipeline only reads columns it has checked or built). -/
def rowGet (r : Row) (c : String) : Cell :=
  match r with
  | [] => Cell.na
  | (c', v) :: rest => if c' = c then v else rowGet rest c

/-- A session data frame: the column names and the rows. -/
structure DataFrame where
  cols : List String
  rows : List Row
deriving DecidableEq

/-- Sum of a (numeric) column, `df[col].sum()`. -/
def sumCol (df : DataFrame) (c : String) : Int :=
  (df.rows.map (fun r => cellInt (rowGet r c))).sum

/-- src/app.py lines 322-324: one step of the filter loop.  A filter is
applied only when its allowed-value list is non-empty, lacks the "All"
sentinel, and names a present column. -/
def applyFilter (acc : DataFrame) (f : String × List Cell) : DataFrame :=
  if f.2 ≠ [] ∧ Cell.str "All" ∉ f.2 ∧ f.1 ∈ acc.cols then
    ⟨acc.cols, acc.rows.filter (fun r => rowGet r f.1 ∈ f.2)⟩
  else acc

/-- src/app.py lines 315-326, `SalesDashboard.filter_data`: when no data
frame is loaded the result is an empty frame, otherwise each filter is
applied in turn to a copy of the frame. -/
def filter_data (df : Option DataFrame) (filters : List (String × List Cell)) : DataFrame :=
  match df with
  | none => ⟨[], []⟩
  | some d => filters.foldl applyFilter d

/-- Sortable key of a `(year, month)` pair, src/app.py line 254:
`YearMonth_num = Year_num * 100 + Month_num`. -/
def ym (p : Int × Int) : Int :=
  p.1 * 100 + p.2

/-- Minimum of the sortable keys of a pair list (`earliest_ym`). -/
def minYM : List (Int × Int) → Int
  | [] => 0
  | p :: ps => ps.foldl (fun a q => min a (ym q)) (ym p)

/-- Maximum of the sortable keys of a pair list (`latest_ym`). -/
def maxYM : List (Int × Int) → Int
  | [] => 0
  | p :: ps => ps.foldl (fun a q => max a (ym q)) (ym p)

/-- The `month_names` lookup of src/app.py lines 264-265; a key outside
1..12 raises `KeyError`, modelled as `none`. -/
def monthAbbrev (m : Int) : Option String :=
  if m = 1 then some "JAN" else if m = 2 then some "FEB" else if m = 3 then some "MAR"
  else if m = 4 then some "APR" else if m = 5 then some "MAY" else if m = 6 then some "JUN"
  else if m = 7 then some "JUL" else if m = 8 then some "AUG" else if m = 9 then some "SEP"
  else if m = 10 then some "OCT" else if m = 11 then some "NOV" else if m = 12 then some "DEC"
  else none

/-- One rolling 12-month window, src/app.py lines 289-294. -/
structure MATPeriod where
  label : String
  months : List (Int × Int)
  end_year : Int
  end_month : Int
deriving DecidableEq

/-- src/app.py lines 275-284: collect `fuel` months walking backwards from
`(y, m)`, decrementing the month and wrapping 0 to December of the
previous year. -/
def buildMonths : Nat → Int → Int → List (Int × Int)
  | 0, _, _ => []
  | fuel + 1, y, m =>
    (y, m) :: (if m - 1 = 0 then buildMonths fuel (y - 1) 12 else buildMonths fuel y (m - 1))

/-- src/app.py lines 272-301: the generation loop.  `fuel` is the number
of iterations still allowed by `mat_count < 24`.  Each pass checks the
boundary condition, emits the window ending at `(cy, cm)` (its `months`
reversed into ascending order, its label through `month_names` — a
`KeyError` aborts the whole computation, hence `Option`), then steps one
month back. -/
def matLoop (eY eM : Int) : Nat → Int → Int → Option (List MATPeriod)
  | 0, _, _ => some []
  | fuel + 1, cy, cm =>
    if cy > eY ∨ (cy = eY ∧ cm ≥ eM) then
      match monthAbbrev cm with
      | none => none
      | some ab =>
        match (if cm - 1 = 0 then matLoop eY eM fuel (cy - 1) 12 else matLoop eY eM fuel cy (cm - 1)) with
        | none => none
        | some l =>
          some (⟨"MAT_" ++ ab ++ "_" ++ toString cy, (buildMonths 12 cy cm).reverse, cy, cm⟩ :: l)
    else some []

/-- src/app.py lines 238-307, `calculate_all_mat_periods`.  The input is
the list of `(Year, Month)` pairs of the rows surviving the numeric
coercion and `dropna` (an absent `Year`/`Month` column or an all
unparseable frame gives the empty list).  `int(x // 100)` and `x % 100`
on the (integral) keys are Euclidean division and remainder by 100. -/
def calculate_all_mat_periods (pairs : List (Int × Int)) : List MATPeriod :=
  if pairs = [] then []
  else
    match matLoop ((minYM pairs).ediv 100) ((minYM pairs).emod 100) 24
        ((maxYM pairs).ediv 100) ((maxYM pairs).emod 100) with
    | none => []
    | some l => l

/-- src/app.py lines 296-299: step the end pointer one calendar month
back, wrapping January to December of the previous year. -/
def prevMonthPair (p : Int × Int) : Int × Int :=
  if p.2 - 1 = 0 then (p.1 - 1, 12) else (p.1, p.2 - 1)

/-- A row as seen by `filter_data_by_mat`: the raw `Year` and `Month`
fields (the other columns play no part in that function). -/
structure YMRow where
  yearS : String
  monthS : String
deriving DecidableEq

/-- src/app.py lines 335-340: numeric coercion of a row's `Year`/`Month`;
`none` is the pair on which `int(NaN)` raises `ValueError`. -/
def rowKeyYM (r : YMRow) : Option (Int × Int) :=
  match parseNum r.yearS, parseNum r.monthS with
  | some y, some m => some (y, m)
  | _, _ => none

/-- src/app.py lines 338-343: the row-wise membership filter.  The lambda
raises as soon as any row's `Year`/`Month` fails to coerce, so the whole
pass is `Option`-valued. -/
def filterRowsMAT (mats : List (Int × Int)) : List YMRow → Option (List YMRow)
  | [] => some []
  | r :: rs =>
    match rowKeyYM r with
    | none => none
    | some k =>
      match filterRowsMAT mats rs with
      | none => none
      | some rest => some (if k ∈ mats then r :: rest else rest)

/-- src/app.py lines 328-349, `filter_data_by_mat`: empty frame or empty
window set returns a copy of the input; a raised exception inside the
`try` block is caught and also returns a copy of the input. -/
def filter_data_by_mat (df : List YMRow) (mats : List (Int × Int)) : List YMRow :=
  if df = [] ∨ mats = [] then df
  else
    match filterRowsMAT mats df with
    | none => df
    | some res => res

/-- One boundary polygon after the Boundary Loader: its normalized
division name (the geometry plays no part in the aggregations). -/
structure GeoRow where
  admDiv : String
deriving DecidableEq

/-- The trend chart's reduction kind, src/app.py lines 415-418. -/
inductive AggType where
  | sum
  | mean
deriving DecidableEq

/-- `df.groupby(g)[v].sum()`, src/app.py lines 374 and 442: one output
pair per distinct key of column `g`, in first-occurrence order (the host
library sorts the keys, which only permutes the rows); `none` models the
`KeyError` raised when either column is absent. -/
def groupbySum (df : DataFrame) (g v : String) : Option (List (Cell × Int)) :=
  if g ∈ df.cols ∧ v ∈ df.cols then
    some (((df.rows.map (fun r => rowGet r g)).dedup).map (fun k =>
      (k, (df.rows.filter (fun r => rowGet r g = k)).foldl (fun acc r => acc + cellInt (rowGet r v)) 0)))
  else none

/-- First value at a key of an aggregated key/value list. -/
def findVal (agg : List (Cell × Int)) (k : Cell) : Option Int :=
  match agg with
  | [] => none
  | (k', v) :: rest => if k' = k then some v else findVal rest k

/-- src/app.py lines 363-381, the data part of `create_choropleth_map`:
empty frame or missing boundary data returns an empty figure (`some []`),
a missing group column returns an empty figure, then the grouped sums are
left-joined onto the boundary rows with unmatched values filled with 0.
The value column is never checked, so `groupbySum` can raise (`none`). -/
def create_choropleth_map (df : DataFrame) (gdf : Option (List GeoRow))
    (admCol valueCol : String) : Option (List (String × Int)) :=
  if df.rows = [] ∨ gdf = none then some []
  else if admCol ∉ df.cols then some []
  else
    match groupbySum df admCol valueCol with
    | none => none
    | some agg =>
      some ((gdf.getD []).map (fun gr =>
        (gr.admDiv, (findVal agg (Cell.str gr.admDiv)).getD 0)))

/-- Numeric reading of a cell as the rational the host library aggregates
with (used where a mean can occur). -/
def cellRat (c : Cell) : Rat :=
  match c with
  | Cell.num n => (n : Rat)
  | _ => 0

/-- Key of a row under a list of grouping columns. -/
def rowKeyCells (r : Row) (gs : List String) : List Cell :=
  gs.map (rowGet r)

/-- `df.groupby(gs)[v]` reduced by sum or mean, src/app.py lines 412-428:
one output pair per distinct key tuple; `none` models the `KeyError`
raised when any referenced column is absent.  The subsequent
`sort_values(time_col)` only permutes the rows and is not modelled. -/
def groupbyAggMulti (df : DataFrame) (gs : List String) (v : String) (a : AggType) :
    Option (List (List Cell × Rat)) :=
  if (∀ g ∈ gs, g ∈ df.cols) ∧ v ∈ df.cols then
    some (((df.rows.map (fun r => rowKeyCells r gs)).dedup).map (fun k =>
      (k,
        match a with
        | AggType.sum => (df.rows.filter (fun r => rowKeyCells r gs = k)).foldl
            (fun acc r => acc + cellRat (rowGet r v)) 0
        | AggType.mean => ((df.rows.filter (fun r => rowKeyCells r gs = k)).foldl
            (fun acc r => acc + cellRat (rowGet r v)) 0) /
              (((df.rows.filter (fun r => rowKeyCells r gs = k)).length : Rat)))))
  else none

/-- src/app.py lines 406-435, the data part of `create_trend_chart`:
empty frame or missing time/value column returns an empty figure; with
group-by parameters the frame is grouped by `[time] + params` (their
presence is never checked, so this can raise), else by the time column. -/
def create_trend_chart (df : DataFrame) (timeCol valueVar : String)
    (groupParams : List String) (a : AggType) : Option (List (List Cell × Rat)) :=
  if df.rows = [] ∨ timeCol ∉ df.cols ∨ valueVar ∉ df.cols then some []
  else if groupParams ≠ [] then groupbyAggMulti df (timeCol :: groupParams) valueVar a
  else groupbyAggMulti df [timeCol] valueVar a

/-- src/app.py lines 437-446, the data part of `create_bar_chart`: empty
frame or either referenced column missing returns an empty figure, else
group-and-sum (the descending sort only permutes rows, not modelled). -/
def create_bar_chart (df : DataFrame) (xCol yCol : String) : Option (List (Cell × Int)) :=
  if df.rows = [] ∨ xCol ∉ df.cols ∨ yCol ∉ df.cols then some []
  else groupbySum df xCol yCol

/-- The three recognized measure columns, src/app.py line 140. -/
def numeric_cols : List String :=
  ["Qty_(Pcs)", "Qty_(KG)", "Amount_(BDT)"]

/-- How a cell is written into the delimited export (`to_csv`): numbers
in decimal, text verbatim, missing as the empty field. -/
def renderCell : Cell → String
  | Cell.num n => renderInt n
  | Cell.str s => s
  | Cell.na => ""

/-- A delimited file at the level above quoting/escaping (which is the
host library's own read/write contract): the header fields and the data
fields of each line. -/
structure CSVTable where
  header : List String
  lines : List (List String)

/-- src/app.py lines 637-640: the columns actually exported — `Month` is
dropped when both `Month` and `MonthName` exist. -/
def exportSrc (cols : List String) : List String :=
  if "MonthName" ∈ cols ∧ "Month" ∈ cols then cols.filter (fun c => c ≠ "Month") else cols

/-- src/app.py line 640: the exported name of a column — `MonthName` is
renamed to `Month` when both existed. -/
def exportRen (cols : List String) (c : String) : String :=
  if "MonthName" ∈ cols ∧ "Month" ∈ cols then (if c = "MonthName" then "Month" else c) else c

/-- src/app.py lines 636-642: the export of the filtered frame
(`export_df.to_csv(index=False)`). -/
def export_to_csv (df : DataFrame) : CSVTable :=
  { header := (exportSrc df.cols).map (exportRen df.cols),
    lines := df.rows.map (fun r => (exportSrc df.cols).map (fun c => renderCell (rowGet r c))) }

/-- Strip leading and trailing spaces from a character list. -/
def trimChars (l : List Char) : List Char :=
  ((l.dropWhile (fun c => c = ' ')).reverse.dropWhile (fun c => c = ' ')).reverse

/-- Header whitespace stripping, src/app.py line 137
(`df.columns.str.strip()`). -/
def stripName (s : String) : String :=
  String.mk (trimChars s.data)

/-- Ingestion of one field under its (stripped) column name, src/app.py
lines 140-149: measure columns are numerically coerced with 0 for
failures, all other columns go through `astype(str).fillna('Unknown')`. -/
def ingest_cell (c s : String) : Cell :=
  if c ∈ numeric_cols then Cell.num ((ingest_measure_cell (readCell s)).getD 0)
  else Cell.str ((ingest_dim_cell (readCell s)).getD "Unknown")

/-- src/app.py lines 119-177, `load_data_from_upload`, restricted to the
steps that can affect whether and with which rows and measure cells a
frame is returned: header stripping, per-cell coercion, and the failure
path of the memory-optimization pass.  Lines 168-171 compute
`num_unique / len(df)` for every object-dtype column; after ingestion the
object columns are exactly the non-measure columns (measures were made
numeric on line 144), so on a zero-row frame with any non-measure column
this raises `ZeroDivisionError`, the catch-all `except` on line 175
reports it, and the function returns `None` — modelled as `none` here.
(The `AdmDiv` normalization and the `MonthName`, `YearMonth`,
`YearQuarter` derivations touch only non-measure data or add columns,
never rows.) -/
def load_data_from_table (t : CSVTable) : Option DataFrame :=
  if t.lines = [] ∧ ∃ c ∈ t.header.map stripName, c ∉ numeric_cols then none
  else
    some ⟨t.header.map stripName,
      t.lines.map (fun line =>
        ((t.header.map stripName).zip line).map (fun p => (p.1, ingest_cell p.1 p.2)))⟩

/-- Value of a little-endian digit list. -/
def lowVal : List Nat → Nat
  | [] => 0
  | d :: ds => d + 10 * lowVal ds

/-- C10: with no loaded Dataset, `filter_data` returns the empty data frame
(`pd.DataFrame()`) for every FilterSet instead of raising. -/
theorem filter_data_none_returns_empty (filters : List (String × List Cell)) :
    filter_data none filters = ⟨[], []⟩ := rfl

/-- Helper for C6: a fold of skipped filters leaves the frame unchanged. -/
theorem foldl_applyFilter_noop (d : DataFrame) :
    ∀ filters : List (String × List Cell),
      (∀ f ∈ filters, f.2 = [] ∨ Cell.str "All" ∈ f.2 ∨ f.1 ∉ d.cols) →
      filters.foldl applyFilter d = d := by
  intro filters
  induction filters with
  | nil => intro _; rfl
  | cons f fs ih =>
    intro h
    have hf : applyFilter d f = d := by
      have hcases := h f (List.mem_cons_self f fs)
      unfold applyFilter
      rcases hcases with h1 | h2 | h3
      · rw [if_neg]; intro hc; exact hc.1 h1
      · rw [if_neg]; intro hc; exact hc.2.1 h2
      · rw [if_neg]; intro hc; exact h3 hc.2.2
    rw [List.foldl_cons, hf]
    exact ih (fun g hg => h g (List.mem_cons_of_mem f hg))

/-- C6: `filter_data` is a no-op whenever each filter's allowed-value list
is empty, contains the "All" sentinel, or names an absent column; in
particular `filter_data df [Year ↦ [All]] = df`. -/
theorem filter_data_all_noop (d : DataFrame) (filters : List (String × List Cell))
    (h : ∀ f ∈ filters, f.2 = [] ∨ Cell.str "All" ∈ f.2 ∨ f.1 ∉ d.cols) :
    filter_data (some d) filters = d :=
  foldl_applyFilter_noop d filters h

/-- C6 witness: the "Year ↦ [All]" FilterSet of the claim, on a one-row
frame, returns the frame unchanged. -/
theorem filter_data_all_noop_witness :
    filter_data (some ⟨["Year"], [[("Year", Cell.num 2023)]]⟩)
      [("Year", [Cell.str "All"])] = ⟨["Year"], [[("Year", Cell.num 2023)]]⟩ :=
  filter_data_all_noop ⟨["Year"], [[("Year", Cell.num 2023)]]⟩
    [("Year", [Cell.str "All"])] (by decide)

/-- C2 (code bug): a missing cell of a non-measure column after ingestion
holds the string "nan", not "Unknown" — `astype(str)` stringifies `NaN`
before the dead `fillna('Unknown')` can see a missing value. -/
theorem dim_missing_cell_becomes_nan :
    ingest_dim_cell none = some "nan" ∧ some "nan" ≠ some "Unknown" := by
  constructor
  · rfl
  · decide

/-- C7: after ingestion a measure column has no missing entries, and every
cell that was missing or unparseable holds 0. -/
theorem measure_column_no_missing (cells : List (Option String)) (c : Option String)
    (hc : to_numeric_coerce c = none) :
    countMissing (cells.map ingest_measure_cell) = 0 ∧ ingest_measure_cell c = some 0 := by
  constructor
  · induction cells with
    | nil => rfl
    | cons x xs ih =>
      have hx : (ingest_measure_cell x).isNone = false := by
        unfold ingest_measure_cell
        cases to_numeric_coerce x <;> rfl
      simp only [List.map_cons, countMissing, List.filter_cons, hx] at *
      exact ih
  · unfold ingest_measure_cell
    rw [hc]

/-- C7 witness: on the column `[missing, "abc", "5"]` no ingested entry is
missing, and the unparseable cell "abc" ingests to 0. -/
theorem measure_column_no_missing_witness :
    countMissing (([none, some "abc", some "5"].map ingest_measure_cell)) = 0 ∧
      ingest_measure_cell (some "abc") = some 0 :=
  measure_column_no_missing [none, some "abc", some "5"] (some "abc") (by decide)

/-- The fuel argument of `buildMonths` is the length of its result. -/
theorem buildMonths_length : ∀ (fuel : Nat) (y m : Int), (buildMonths fuel y m).length = fuel := by
  intro fuel
  induction fuel with
  | zero => intro y m; rfl
  | succ n ih =>
    intro y m
    unfold buildMonths
    split <;> simp [ih]

/-- `buildMonths` with positive fuel starts at its seed pair. -/
theorem buildMonths_head? (fuel : Nat) (y m : Int) (h : fuel ≠ 0) :
    (buildMonths fuel y m).head? = some (y, m) := by
  cases fuel with
  | zero => exact absurd rfl h
  | succ n => rfl

/-- Walking backwards from an in-range month yields strictly descending
sortable keys. -/
theorem buildMonths_chain : ∀ (fuel : Nat) (y m : Int), 1 ≤ m → m ≤ 12 →
    List.Chain' (fun a b => ym b < ym a) (buildMonths fuel y m) := by
  intro fuel
  induction fuel with
  | zero => intro y m _ _; exact List.chain'_nil
  | succ n ih =>
    intro y m h1 h2
    unfold buildMonths
    split
    case isTrue hm =>
      refine List.chain'_cons'.mpr ⟨?_, ih (y - 1) 12 (by norm_num) (by norm_num)⟩
      intro b hb
      cases n with
      | zero => simp [buildMonths] at hb
      | succ k =>
        rw [buildMonths_head? (k + 1) (y - 1) 12 (Nat.succ_ne_zero k)] at hb
        simp only [Option.mem_def, Option.some.injEq] at hb
        subst hb
        simp only [ym]
        omega
    case isFalse hm =>
      refine List.chain'_cons'.mpr ⟨?_, ih y (m - 1) (by omega) (by omega)⟩
      intro b hb
      cases n with
      | zero => simp [buildMonths] at hb
      | succ k =>
        rw [buildMonths_head? (k + 1) y (m - 1) (Nat.succ_ne_zero k)] at hb
        simp only [Option.mem_def, Option.some.injEq] at hb
        subst hb
        simp only [ym]
        omega

/-- The reversed 12-month window of an in-range end month: 12 entries,
no duplicates, ascending keys, last entry the end pair. -/
theorem window_good (y m : Int) (h1 : 1 ≤ m) (h2 : m ≤ 12) :
    (buildMonths 12 y m).reverse.length = 12 ∧
    (buildMonths 12 y m).reverse.Nodup ∧
    List.Chain' (fun a b => ym a < ym b) (buildMonths 12 y m).reverse ∧
    (buildMonths 12 y m).reverse.getLast? = some (y, m) := by
  have hch := buildMonths_chain 12 y m h1 h2
  refine ⟨by simp [buildMonths_length], ?_, ?_, ?_⟩
  · haveI : IsTrans (Int × Int) (fun a b => ym b < ym a) :=
      ⟨fun _ _ _ hab hbc => lt_trans hbc hab⟩
    haveI : IsIrrefl (Int × Int) (fun a b => ym b < ym a) :=
      ⟨fun a => lt_irrefl (ym a)⟩
    have hpw : List.Pairwise (fun a b => ym b < ym a) (buildMonths 12 y m) :=
      List.chain'_iff_pairwise.mp hch
    exact List.nodup_reverse.mpr hpw.nodup
  · exact List.chain'_reverse.mpr hch
  · rw [List.getLast?_reverse]
    exact buildMonths_head? 12 y m (by norm_num)

/-- The `month_names` lookup raises for a key outside 1..12. -/
theorem monthAbbrev_none {m : Int} (h : m < 1 ∨ 12 < m) : monthAbbrev m = none := by
  unfold monthAbbrev
  repeat rw [if_neg (by omega)]

/-- A successful `month_names` lookup pins the month to 1..12. -/
theorem monthAbbrev_bounds {m : Int} {ab : String} (h : monthAbbrev m = some ab) :
    1 ≤ m ∧ m ≤ 12 := by
  by_contra hc
  rw [monthAbbrev_none (by omega)] at h
  cases h

/-- Every period emitted by the generation loop ends at an in-range month
and carries the reversed 12-month window of its own end pair. -/
theorem matLoop_shape : ∀ (fuel : Nat) (eY eM cy cm : Int) (l : List MATPeriod),
    matLoop eY eM fuel cy cm = some l →
    ∀ p ∈ l, 1 ≤ p.end_month ∧ p.end_month ≤ 12 ∧
      p.months = (buildMonths 12 p.end_year p.end_month).reverse := by
  intro fuel
  induction fuel with
  | zero =>
    intro eY eM cy cm l h p hp
    unfold matLoop at h
    injection h with h'
    subst h'
    exact absurd hp (List.not_mem_nil p)
  | succ n ih =>
    intro eY eM cy cm l h p hp
    unfold matLoop at h
    split at h
    · cases hab : monthAbbrev cm with
      | none => rw [hab] at h; cases h
      | some ab =>
        rw [hab] at h
        cases hrec : (if cm - 1 = 0 then matLoop eY eM n (cy - 1) 12 else matLoop eY eM n cy (cm - 1)) with
        | none => rw [hrec] at h; cases h
        | some l' =>
          rw [hrec] at h
          injection h with h'
          subst h'
          rw [List.mem_cons] at hp
          rcases hp with rfl | hp
          · obtain ⟨hb1, hb2⟩ := monthAbbrev_bounds hab
            exact ⟨hb1, hb2, rfl⟩
          · split at hrec
            · exact ih eY eM (cy - 1) 12 l' hrec p hp
            · exact ih eY eM cy (cm - 1) l' hrec p hp
    · injection h with h'
      subst h'
      exact absurd hp (List.not_mem_nil p)

/-- The generation loop emits at most `fuel` periods, consecutive periods
step back one month, and the first period ends at the loop's seed. -/
theorem matLoop_cap_chain : ∀ (fuel : Nat) (eY eM cy cm : Int) (l : List MATPeriod),
    matLoop eY eM fuel cy cm = some l →
    l.length ≤ fuel ∧
    List.Chain' (fun p q => (q.end_year, q.end_month) = prevMonthPair (p.end_year, p.end_month)) l ∧
    ∀ p, l.head? = some p → p.end_year = cy ∧ p.end_month = cm := by
  intro fuel
  induction fuel with
  | zero =>
    intro eY eM cy cm l h
    unfold matLoop at h
    injection h with h'
    subst h'
    exact ⟨Nat.le_refl 0, List.chain'_nil, fun p hp => by cases hp⟩
  | succ n ih =>
    intro eY eM cy cm l h
    unfold matLoop at h
    split at h
    · cases hab : monthAbbrev cm with
      | none => rw [hab] at h; cases h
      | some ab =>
        rw [hab] at h
        cases hrec : (if cm - 1 = 0 then matLoop eY eM n (cy - 1) 12 else matLoop eY eM n cy (cm - 1)) with
        | none => rw [hrec] at h; cases h
        | some l' =>
          rw [hrec] at h
          injection h with h'
          subst h'
          have hstep : ∀ q, l'.head? = some q →
              (q.end_year, q.end_month) = prevMonthPair (cy, cm) := by
            intro q hq
            unfold prevMonthPair
            split at hrec
            case isTrue hz =>
              obtain ⟨_, _, hhd⟩ := ih eY eM (cy - 1) 12 l' hrec
              obtain ⟨e1, e2⟩ := hhd q hq
              rw [if_pos hz, e1, e2]
            case isFalse hz =>
              obtain ⟨_, _, hhd⟩ := ih eY eM cy (cm - 1) l' hrec
              obtain ⟨e1, e2⟩ := hhd q hq
              rw [if_neg hz, e1, e2]
          have hlen : l'.length ≤ n := by
            split at hrec
            · exact (ih eY eM (cy - 1) 12 l' hrec).1
            · exact (ih eY eM cy (cm - 1) l' hrec).1
          have hch : List.Chain' (fun p q => (q.end_year, q.end_month) = prevMonthPair (p.end_year, p.end_month)) l' := by
            split at hrec
            · exact (ih eY eM (cy - 1) 12 l' hrec).2.1
            · exact (ih eY eM cy (cm - 1) l' hrec).2.1
          refine ⟨by simpa using Nat.succ_le_succ hlen, ?_, ?_⟩
          · refine List.chain'_cons'.mpr ⟨?_, hch⟩
            intro q hq
            exact hstep q hq
          · intro p hp
            injection hp with hp'
            subst hp'
            exact ⟨rfl, rfl⟩
    · injection h with h'
      subst h'
      exact ⟨Nat.zero_le n.succ, List.chain'_nil, fun p hp => by cases hp⟩

/-- Stepping the end pointer back strictly decreases the sortable key. -/
theorem prevMonthPair_lt (a : Int × Int) : ym (prevMonthPair a) < ym a := by
  unfold prevMonthPair ym
  split_ifs with h
  · simp only
    omega
  · simp only
    omega

/-- C8: the Period Calculator returns at most 24 periods, and each
consecutive period ends exactly one calendar month earlier than the one
before it (January wrapping to December of the previous year), so the
collection is ordered most-recent-first. -/
theorem mat_periods_cap_and_monthly_step (pairs : List (Int × Int)) :
    (calculate_all_mat_periods pairs).length ≤ 24 ∧
    List.Chain'
      (fun p q => (q.end_year, q.end_month) = prevMonthPair (p.end_year, p.end_month) ∧
        ym (q.end_year, q.end_month) < ym (p.end_year, p.end_month))
      (calculate_all_mat_periods pairs) := by
  unfold calculate_all_mat_periods
  split
  · exact ⟨by simp, List.chain'_nil⟩
  · cases h : matLoop ((minYM pairs).ediv 100) ((minYM pairs).emod 100) 24
        ((maxYM pairs).ediv 100) ((maxYM pairs).emod 100) with
    | none => simp [h]
    | some l =>
      obtain ⟨h1, h2, _⟩ := matLoop_cap_chain 24 _ _ _ _ l h
      simp only [h]
      refine ⟨h1, List.Chain'.imp ?_ h2⟩
      intro p q hpq
      refine ⟨hpq, ?_⟩
      rw [hpq]
      exact prevMonthPair_lt (p.end_year, p.end_month)

set_option maxRecDepth 4000 in
/-- C1: when the parseable `(Year, Month)` pairs span exactly January 2022
through December 2023, the first emitted period is labelled "MAT_DEC_2023"
with months exactly January..December 2023 in ascending order; and for
every input, every emitted period's months list is 12 distinct pairs in
ascending key order ending at the period's `(end_year, end_month)`. -/
theorem mat_first_period_and_window (pairs : List (Int × Int)) (hne : pairs ≠ [])
    (hmin : minYM pairs = 202201) (hmax : maxYM pairs = 202312)
    (qairs : List (Int × Int)) (p : MATPeriod)
    (hp : p ∈ calculate_all_mat_periods qairs) :
    (calculate_all_mat_periods pairs).head? =
      some ⟨"MAT_DEC_2023",
        [(2023, 1), (2023, 2), (2023, 3), (2023, 4), (2023, 5), (2023, 6),
         (2023, 7), (2023, 8), (2023, 9), (2023, 10), (2023, 11), (2023, 12)], 2023, 12⟩ ∧
    (p.months.length = 12 ∧ p.months.Nodup ∧
      List.Chain' (fun a b => ym a < ym b) p.months ∧
      p.months.getLast? = some (p.end_year, p.end_month)) := by
  constructor
  · unfold calculate_all_mat_periods
    rw [if_neg hne, hmin, hmax]
    decide
  · unfold calculate_all_mat_periods at hp
    split at hp
    · exact absurd hp (List.not_mem_nil p)
    · cases hq : matLoop ((minYM qairs).ediv 100) ((minYM qairs).emod 100) 24
          ((maxYM qairs).ediv 100) ((maxYM qairs).emod 100) with
      | none =>
        rw [hq] at hp
        exact absurd hp (List.not_mem_nil p)
      | some l =>
        rw [hq] at hp
        obtain ⟨hb1, hb2, hm⟩ := matLoop_shape 24 _ _ _ _ l hq p hp
        obtain ⟨w1, w2, w3, w4⟩ := window_good p.end_year p.end_month hb1 hb2
        rw [hm]
        exact ⟨w1, w2, w3, w4⟩

set_option maxRecDepth 4000 in
/-- C1 witness: the two-row dataset spanning (2022, 1) .. (2023, 12) has
first period "MAT_DEC_2023" with the twelve 2023 months ascending, and
that first period's window satisfies the shape properties. -/
theorem mat_first_period_and_window_witness :
    (calculate_all_mat_periods [(2022, 1), (2023, 12)]).head? =
      some ⟨"MAT_DEC_2023",
        [(2023, 1), (2023, 2), (2023, 3), (2023, 4), (2023, 5), (2023, 6),
         (2023, 7), (2023, 8), (2023, 9), (2023, 10), (2023, 11), (2023, 12)], 2023, 12⟩ ∧
    (([(2023, 1), (2023, 2), (2023, 3), (2023, 4), (2023, 5), (2023, 6),
       (2023, 7), (2023, 8), (2023, 9), (2023, 10), (2023, 11), (2023, 12)] : List (Int × Int)).length = 12 ∧
      ([(2023, 1), (2023, 2), (2023, 3), (2023, 4), (2023, 5), (2023, 6),
        (2023, 7), (2023, 8), (2023, 9), (2023, 10), (2023, 11), (2023, 12)] : List (Int × Int)).Nodup ∧
      List.Chain' (fun a b => ym a < ym b)
        [(2023, 1), (2023, 2), (2023, 3), (2023, 4), (2023, 5), (2023, 6),
         (2023, 7), (2023, 8), (2023, 9), (2023, 10), (2023, 11), (2023, 12)] ∧
      ([(2023, 1), (2023, 2), (2023, 3), (2023, 4), (2023, 5), (2023, 6),
        (2023, 7), (2023, 8), (2023, 9), (2023, 10), (2023, 11), (2023, 12)] : List (Int × Int)).getLast? =
        some (2023, 12)) :=
  mat_first_period_and_window [(2022, 1), (2023, 12)] (by decide) (by decide) (by decide)
    [(2022, 1), (2023, 12)]
    ⟨"MAT_DEC_2023",
      [(2023, 1), (2023, 2), (2023, 3), (2023, 4), (2023, 5), (2023, 6),
       (2023, 7), (2023, 8), (2023, 9), (2023, 10), (2023, 11), (2023, 12)], 2023, 12⟩
    (by decide)

/-- When every row's Year and Month coerce, the MAT row filter succeeds
and keeps exactly rows whose pair lies in the window set. -/
theorem filterRowsMAT_all_parse (mats : List (Int × Int)) :
    ∀ df : List YMRow, (∀ r ∈ df, (rowKeyYM r).isSome) →
    ∃ res, filterRowsMAT mats df = some res ∧
      ∀ r ∈ res, ∃ k, rowKeyYM r = some k ∧ k ∈ mats := by
  intro df
  induction df with
  | nil => intro _; exact ⟨[], rfl, fun r hr => absurd hr (List.not_mem_nil r)⟩
  | cons x xs ih =>
    intro h
    have hx := h x (List.mem_cons_self x xs)
    cases hk : rowKeyYM x with
    | none => rw [hk] at hx; cases hx
    | some k =>
      obtain ⟨res, hres, hmem⟩ := ih (fun r hr => h r (List.mem_cons_of_mem x hr))
      refine ⟨if k ∈ mats then x :: res else res, ?_, ?_⟩
      · simp only [filterRowsMAT, hk, hres]
      · intro r hr
        by_cases hkm : k ∈ mats
        · rw [if_pos hkm, List.mem_cons] at hr
          rcases hr with rfl | hr
          · exact ⟨k, hk, hkm⟩
          · exact hmem r hr
        · rw [if_neg hkm] at hr
          exact hmem r hr

/-- As soon as any row's Year or Month fails to coerce, the MAT row
filter raises. -/
theorem filterRowsMAT_fails (mats : List (Int × Int)) :
    ∀ df : List YMRow, (∃ r ∈ df, rowKeyYM r = none) →
    filterRowsMAT mats df = none := by
  intro df
  induction df with
  | nil =>
    rintro ⟨r, hr, _⟩
    exact absurd hr (List.not_mem_nil r)
  | cons x xs ih =>
    rintro ⟨r, hr, hk⟩
    rw [List.mem_cons] at hr
    cases hkx : rowKeyYM x with
    | none => simp only [filterRowsMAT, hkx]
    | some k =>
      rcases hr with rfl | hr
      · rw [hkx] at hk; cases hk
      · have hn := ih ⟨r, hr, hk⟩
        simp only [filterRowsMAT, hkx, hn]

/-- C3 counterexample: with the non-empty window set `[(2023, 1)]` and a
row whose Year "abc" does not coerce, the caught `ValueError` makes
`filter_data_by_mat` return its input unchanged — the unparseable row
appears in the result, contradicting the claim. -/
theorem filter_by_mat_counterexample :
    filter_data_by_mat [⟨"abc", "1"⟩] [(2023, 1)] = [⟨"abc", "1"⟩] ∧
    rowKeyYM ⟨"abc", "1"⟩ = none := by
  decide

/-- C3 (amended): for a non-empty window set, when every row's Year and
Month coerce numerically the result only contains rows whose pair is in
the window set; but when any row fails to coerce, the function returns
its input unchanged, failing rows included. -/
theorem filter_by_mat_amended (df : List YMRow) (mats : List (Int × Int)) (hm : mats ≠ []) :
    ((∀ r ∈ df, (rowKeyYM r).isSome) →
      ∀ r ∈ filter_data_by_mat df mats, ∃ k, rowKeyYM r = some k ∧ k ∈ mats) ∧
    ((∃ r ∈ df, rowKeyYM r = none) → filter_data_by_mat df mats = df) := by
  constructor
  · intro hall r hr
    by_cases hdf : df = []
    · subst hdf
      unfold filter_data_by_mat at hr
      rw [if_pos (Or.inl rfl)] at hr
      exact absurd hr (List.not_mem_nil r)
    · obtain ⟨res, hres, hmem⟩ := filterRowsMAT_all_parse mats df hall
      unfold filter_data_by_mat at hr
      rw [if_neg (not_or.mpr ⟨hdf, hm⟩)] at hr
      rw [hres] at hr
      exact hmem r hr
  · rintro ⟨r, hrdf, hk⟩
    by_cases hdf : df = []
    · subst hdf
      exact absurd hrdf (List.not_mem_nil r)
    · have hn := filterRowsMAT_fails mats df ⟨r, hrdf, hk⟩
      unfold filter_data_by_mat
      rw [if_neg (not_or.mpr ⟨hdf, hm⟩), hn]

/-- C3 witness: on an all-parseable frame the surviving rows' pairs lie
in the window set, and on a frame with an unparseable Month the function
returns the input unchanged. -/
theorem filter_by_mat_amended_witness :
    (∀ r ∈ filter_data_by_mat [⟨"2023", "1"⟩, ⟨"2023", "2"⟩] [(2023, 1)],
      ∃ k, rowKeyYM r = some k ∧ k ∈ [((2023 : Int), (1 : Int))]) ∧
    filter_data_by_mat [⟨"2023", "x"⟩] [(2023, 1)] = [⟨"2023", "x"⟩] :=
  ⟨(filter_by_mat_amended [⟨"2023", "1"⟩, ⟨"2023", "2"⟩] [(2023, 1)] (by decide)).1 (by decide),
    (filter_by_mat_amended [⟨"2023", "x"⟩] [(2023, 1)] (by decide)).2
      ⟨⟨"2023", "x"⟩, by decide, by decide⟩⟩

/-- C4 counterexample: on a non-empty frame, a trend aggregation with an
absent group-by column and a map aggregation with an absent value column
both raise (`none`) instead of returning an empty result. -/
theorem agg_raises_counterexample :
    create_trend_chart
      ⟨["Year", "Amount_(BDT)"], [[("Year", Cell.num 2023), ("Amount_(BDT)", Cell.num 5)]]⟩
      "Year" "Amount_(BDT)" ["Brand"] AggType.sum = none ∧
    create_choropleth_map
      ⟨["Year", "Amount_(BDT)"], [[("Year", Cell.num 2023), ("Amount_(BDT)", Cell.num 5)]]⟩
      (some [⟨"Dhaka"⟩]) "Year" "Qty_(KG)" = none := by
  decide

/-- C4 (amended): each aggregation returns an empty result on an empty
frame; the bar chart checks both its referenced columns and never raises;
the trend chart checks its time and value columns but raises on absent
group-by columns (it cannot raise when they are all present); the map
checks the group column and absent boundary data but raises on an absent
value column (it cannot raise when the value column is present). -/
theorem agg_empty_result_amended (df : DataFrame) (gdf : Option (List GeoRow))
    (t v x : String) (gps : List String) (a : AggType) :
    (create_bar_chart df x v).isSome ∧
    (df.rows = [] →
      create_bar_chart df x v = some [] ∧
      create_trend_chart df t v gps a = some [] ∧
      create_choropleth_map df gdf x v = some []) ∧
    (x ∉ df.cols →
      create_bar_chart df x v = some [] ∧ create_choropleth_map df gdf x v = some []) ∧
    (v ∉ df.cols →
      create_bar_chart df x v = some [] ∧ create_trend_chart df t v gps a = some []) ∧
    (t ∉ df.cols → create_trend_chart df t v gps a = some []) ∧
    ((∀ g ∈ gps, g ∈ df.cols) → (create_trend_chart df t v gps a).isSome) ∧
    (v ∈ df.cols → (create_choropleth_map df gdf x v).isSome) ∧
    (gdf = none → create_choropleth_map df gdf x v = some []) := by
  refine ⟨?_, ?_, ?_, ?_, ?_, ?_, ?_, ?_⟩
  · unfold create_bar_chart
    split
    · rfl
    case isFalse h =>
      push_neg at h
      unfold groupbySum
      rw [if_pos ⟨h.2.1, h.2.2⟩]
      rfl
  · intro h
    refine ⟨?_, ?_, ?_⟩
    · unfold create_bar_chart
      rw [if_pos (Or.inl h)]
    · unfold create_trend_chart
      rw [if_pos (Or.inl h)]
    · unfold create_choropleth_map
      rw [if_pos (Or.inl h)]
  · intro h
    constructor
    · unfold create_bar_chart
      rw [if_pos (Or.inr (Or.inl h))]
    · unfold create_choropleth_map
      by_cases h0 : df.rows = [] ∨ gdf = none
      · rw [if_pos h0]
      · rw [if_neg h0, if_pos h]
  · intro h
    constructor
    · unfold create_bar_chart
      rw [if_pos (Or.inr (Or.inr h))]
    · unfold create_trend_chart
      rw [if_pos (Or.inr (Or.inr h))]
  · intro h
    unfold create_trend_chart
    rw [if_pos (Or.inr (Or.inl h))]
  · intro h
    unfold create_trend_chart
    split
    · rfl
    case isFalse hng =>
      push_neg at hng
      have hall : ∀ g ∈ t :: gps, g ∈ df.cols := by
        intro g hg
        rw [List.mem_cons] at hg
        rcases hg with rfl | hg
        · exact hng.2.1
        · exact h g hg
      split
      · unfold groupbyAggMulti
        rw [if_pos ⟨hall, hng.2.2⟩]
        rfl
      · unfold groupbyAggMulti
        rw [if_pos ⟨fun g hg => by
            rw [List.mem_cons] at hg
            rcases hg with rfl | hg
            · exact hng.2.1
            · exact absurd hg (List.not_mem_nil g), hng.2.2⟩]
        rfl
  · intro h
    unfold create_choropleth_map
    split
    · rfl
    · split
      · rfl
      case isFalse hadm =>
        push_neg at hadm
        unfold groupbySum
        rw [if_pos ⟨hadm, h⟩]
        rfl
  · intro h
    unfold create_choropleth_map
    rw [if_pos (Or.inr h)]

/-- C4 witness: on an empty frame the bar aggregation is defined, the
trend aggregation returns the empty result, and (the value column being
present) the map aggregation is defined. -/
theorem agg_empty_result_amended_witness :
    (create_bar_chart ⟨["Year", "Amount_(BDT)"], []⟩ "Year" "Amount_(BDT)").isSome ∧
    create_trend_chart ⟨["Year", "Amount_(BDT)"], []⟩ "Year" "Amount_(BDT)" [] AggType.sum = some [] ∧
    (create_choropleth_map ⟨["Year", "Amount_(BDT)"], []⟩ (some [⟨"Dhaka"⟩])
      "Year" "Amount_(BDT)").isSome :=
  ⟨(agg_empty_result_amended ⟨["Year", "Amount_(BDT)"], []⟩ (some [⟨"Dhaka"⟩])
      "Year" "Amount_(BDT)" "Year" [] AggType.sum).1,
    ((agg_empty_result_amended ⟨["Year", "Amount_(BDT)"], []⟩ (some [⟨"Dhaka"⟩])
      "Year" "Amount_(BDT)" "Year" [] AggType.sum).2.1 rfl).2.1,
    (agg_empty_result_amended ⟨["Year", "Amount_(BDT)"], []⟩ (some [⟨"Dhaka"⟩])
      "Year" "Amount_(BDT)" "Year" [] AggType.sum).2.2.2.2.2.2.1 (by decide)⟩

/-- A key absent from an aggregated key list has no aggregated value. -/
theorem findVal_not_mem (f : Cell → Int) (k : Cell) :
    ∀ ks : List Cell, k ∉ ks → findVal (ks.map (fun c => (c, f c))) k = none := by
  intro ks
  induction ks with
  | nil => intro _; rfl
  | cons a l ih =>
    intro h
    simp only [List.map_cons, findVal]
    rw [if_neg (fun ha => h (by rw [ha]; exact List.mem_cons_self k l)),
      ih (fun hl => h (List.mem_cons_of_mem a hl))]

/-- C5 counterexample: on an empty frame with one boundary polygon the
map output has zero rows, not one row per polygon. -/
theorem choropleth_completeness_counterexample :
    (create_choropleth_map ⟨["AdmDiv", "Amount_(BDT)"], []⟩ (some [⟨"Dhaka"⟩])
      "AdmDiv" "Amount_(BDT)").getD [] = [] ∧
    ([(⟨"Dhaka"⟩ : GeoRow)]).length = 1 := by
  decide

/-- C5 (amended): on a non-empty frame whose group column and value
column are both present, and with boundary data present, the map output
has exactly one row per boundary polygon, and every polygon with no
matching row carries the value 0. -/
theorem choropleth_completeness_amended (df : DataFrame) (grows : List GeoRow)
    (admCol valueCol : String) (h1 : df.rows ≠ []) (h2 : admCol ∈ df.cols)
    (h3 : valueCol ∈ df.cols) :
    ((create_choropleth_map df (some grows) admCol valueCol).getD []).length = grows.length ∧
    ∀ gr ∈ grows, (∀ r ∈ df.rows, rowGet r admCol ≠ Cell.str gr.admDiv) →
      (gr.admDiv, (0 : Int)) ∈ (create_choropleth_map df (some grows) admCol valueCol).getD [] := by
  unfold create_choropleth_map
  rw [if_neg (not_or.mpr ⟨h1, by simp⟩), if_neg (not_not_intro h2)]
  unfold groupbySum
  rw [if_pos ⟨h2, h3⟩]
  simp only [Option.getD_some, List.length_map]
  constructor
  · trivial
  · intro gr hgr hmiss
    refine List.mem_map.mpr ⟨gr, hgr, ?_⟩
    have hnot : Cell.str gr.admDiv ∉ (df.rows.map (fun r => rowGet r admCol)).dedup := by
      rw [List.mem_dedup, List.mem_map]
      rintro ⟨r, hr, hget⟩
      exact hmiss r hr hget
    rw [findVal_not_mem _ _ _ hnot]
    rfl

/-- C5 witness: one data row matching "Dhaka" and the two polygons
"Dhaka" and "Khulna": the output has two rows and the unmatched polygon
"Khulna" carries 0. -/
theorem choropleth_completeness_amended_witness :
    ((create_choropleth_map
        ⟨["AdmDiv", "Amount_(BDT)"], [[("AdmDiv", Cell.str "Dhaka"), ("Amount_(BDT)", Cell.num 5)]]⟩
        (some [⟨"Dhaka"⟩, ⟨"Khulna"⟩]) "AdmDiv" "Amount_(BDT)").getD []).length =
      [(⟨"Dhaka"⟩ : GeoRow), ⟨"Khulna"⟩].length ∧
    ("Khulna", (0 : Int)) ∈ (create_choropleth_map
        ⟨["AdmDiv", "Amount_(BDT)"], [[("AdmDiv", Cell.str "Dhaka"), ("Amount_(BDT)", Cell.num 5)]]⟩
        (some [⟨"Dhaka"⟩, ⟨"Khulna"⟩]) "AdmDiv" "Amount_(BDT)").getD [] :=
  ⟨(choropleth_completeness_amended
      ⟨["AdmDiv", "Amount_(BDT)"], [[("AdmDiv", Cell.str "Dhaka"), ("Amount_(BDT)", Cell.num 5)]]⟩
      [⟨"Dhaka"⟩, ⟨"Khulna"⟩] "AdmDiv" "Amount_(BDT)" (by decide) (by decide) (by decide)).1,
    (choropleth_completeness_amended
      ⟨["AdmDiv", "Amount_(BDT)"], [[("AdmDiv", Cell.str "Dhaka"), ("Amount_(BDT)", Cell.num 5)]]⟩
      [⟨"Dhaka"⟩, ⟨"Khulna"⟩] "AdmDiv" "Amount_(BDT)" (by decide) (by decide) (by decide)).2
      ⟨"Khulna"⟩ (by decide) (by decide)⟩

/-- Reading back the character of a digit value. -/
theorem dv_dc (d : Nat) (hd : d < 10) : digitVal (digitChar d) = some d := by
  interval_cases d <;> decide

theorem dc_ne_minus (d : Nat) (hd : d < 10) : digitChar d ≠ '-' := by
  interval_cases d <;> decide

theorem foldl_pStep_digits : ∀ (ds : List Nat) (a : Nat), (∀ d ∈ ds, d < 10) →
    List.foldl pStep (some a) (ds.map digitChar) = some (ds.foldl (fun x d => x * 10 + d) a) := by
  intro ds
  induction ds with
  | nil => intro a _; rfl
  | cons d l ih =>
    intro a h
    have hd : d < 10 := h d (List.mem_cons_self d l)
    simp only [List.map_cons, List.foldl_cons, pStep, dv_dc d hd]
    exact ih (a * 10 + d) (fun e he => h e (List.mem_cons_of_mem d he))

theorem foldl_reverse_lowVal : ∀ (ds : List Nat) (a : Nat),
    List.foldl (fun x d => x * 10 + d) a ds.reverse = a * 10 ^ ds.length + lowVal ds := by
  intro ds
  induction ds with
  | nil => intro a; simp [lowVal]
  | cons d l ih =>
    intro a
    simp only [List.reverse_cons, List.foldl_append, List.foldl_cons, List.foldl_nil, ih,
      lowVal, List.length_cons]
    ring

theorem lowVal_natDigitsRev : ∀ (fuel n : Nat), n ≤ fuel → lowVal (natDigitsRev fuel n) = n := by
  intro fuel
  induction fuel with
  | zero =>
    intro n h
    have hz : n = 0 := Nat.le_zero.mp h
    subst hz
    rfl
  | succ f ih =>
    intro n h
    unfold natDigitsRev
    split
    case isTrue hz => simp [lowVal, hz]
    case isFalse hz =>
      simp only [lowVal]
      rw [ih (n / 10) (by omega)]
      omega

theorem natDigitsRev_lt_ten : ∀ (fuel n : Nat), ∀ d ∈ natDigitsRev fuel n, d < 10 := by
  intro fuel
  induction fuel with
  | zero => intro n d hd; exact absurd hd (List.not_mem_nil d)
  | succ f ih =>
    intro n d hd
    unfold natDigitsRev at hd
    split at hd
    · exact absurd hd (List.not_mem_nil d)
    · rw [List.mem_cons] at hd
      rcases hd with rfl | hd
      · exact Nat.mod_lt n (by norm_num)
      · exact ih (n / 10) d hd

theorem natDigitsRev_ne_nil : ∀ (fuel n : Nat), n ≠ 0 → n ≤ fuel → natDigitsRev fuel n ≠ [] := by
  intro fuel n hn h
  cases fuel with
  | zero => omega
  | succ f =>
    unfold natDigitsRev
    rw [if_neg hn]
    exact List.cons_ne_nil _ _

theorem digitCharList_ne_nil (m : Nat) (hm : m ≠ 0) :
    (natDigitsRev m m).reverse.map digitChar ≠ [] := by
  intro hE
  have h1 : (natDigitsRev m m).reverse = [] := List.map_eq_nil_iff.mp hE
  have h2 : natDigitsRev m m = [] := by
    have h3 := congrArg List.reverse h1
    rwa [List.reverse_reverse] at h3
  exact natDigitsRev_ne_nil m m hm (Nat.le_refl m) h2

theorem parseDigits_renderNat (n : Nat) (hn : n ≠ 0) :
    parseDigits ((natDigitsRev n n).reverse.map digitChar) = some n := by
  unfold parseDigits
  rw [if_neg (digitCharList_ne_nil n hn)]
  have hlt : ∀ d ∈ (natDigitsRev n n).reverse, d < 10 := fun d hd =>
    natDigitsRev_lt_ten n n d (List.mem_reverse.mp hd)
  rw [foldl_pStep_digits ((natDigitsRev n n).reverse) 0 hlt,
    foldl_reverse_lowVal (natDigitsRev n n) 0, lowVal_natDigitsRev n n (Nat.le_refl n)]
  norm_num

theorem parseNum_cons (c : Char) (cs : List Char) :
    parseNum (String.mk (c :: cs)) =
      if c = '-' then (parseDigits cs).map (fun k : Nat => -(k : Int))
      else (parseDigits (c :: cs)).map (fun k : Nat => (k : Int)) := rfl

theorem parseNum_renderNat (n : Nat) : parseNum (renderNat n) = some (n : Int) := by
  by_cases hn : n = 0
  · subst hn
    decide
  · unfold renderNat
    rw [if_neg hn]
    cases hE : (natDigitsRev n n).reverse.map digitChar with
    | nil => exact absurd hE (digitCharList_ne_nil n hn)
    | cons c cs =>
      have hcm : c ∈ (natDigitsRev n n).reverse.map digitChar := by
        rw [hE]
        exact List.mem_cons_self c cs
      obtain ⟨d, hd, hdc⟩ := List.mem_map.mp hcm
      have hd10 : d < 10 := natDigitsRev_lt_ten n n d (List.mem_reverse.mp hd)
      rw [parseNum_cons]
      rw [if_neg (by rw [← hdc]; exact dc_ne_minus d hd10)]
      rw [← hE]
      rw [parseDigits_renderNat n hn]
      rfl

theorem parseNum_renderInt (n : Int) : parseNum (renderInt n) = some n := by
  unfold renderInt
  split
  case isTrue hneg =>
    have habs : n.natAbs ≠ 0 := by omega
    rw [parseNum_cons, if_pos rfl, parseDigits_renderNat n.natAbs habs]
    have hval : -((n.natAbs : Nat) : Int) = n := by omega
    simp only [Option.map_some']
    rw [hval]
  case isFalse hpos =>
    rw [parseNum_renderNat n.toNat]
    have hval : ((n.toNat : Nat) : Int) = n := Int.toNat_of_nonneg (by omega)
    rw [hval]

/-- A rendered integer is never the empty field. -/
theorem renderInt_ne_empty (n : Int) : renderInt n ≠ "" := by
  unfold renderInt
  split
  case isTrue h =>
    intro hc
    have hdata := congrArg String.data hc
    exact absurd hdata (List.cons_ne_nil _ _)
  case isFalse h =>
    unfold renderNat
    split
    · decide
    case isFalse hz =>
      intro hc
      have hdata := congrArg String.data hc
      exact digitCharList_ne_nil n.toNat hz hdata

/-- Re-ingesting the rendering of a numeric measure cell recovers the
cell exactly. -/
theorem ingest_cell_renderInt (c : String) (hc : c ∈ numeric_cols) (n : Int) :
    ingest_cell c (renderInt n) = Cell.num n := by
  unfold ingest_cell
  rw [if_pos hc]
  unfold readCell
  rw [if_neg (renderInt_ne_empty n)]
  simp only [ingest_measure_cell, to_numeric_coerce, Option.some_bind, parseNum_renderInt,
    Option.getD_some]

/-- Reading a re-ingested row at a column whose exported name is itself:
the cell is the ingestion of that column's rendered value. -/
theorem rowGet_zip_build (ρ : String → String) (q : String → String) (c : String)
    (hρ : ∀ a, ρ a = c ↔ a = c) :
    ∀ l : List String,
      rowGet (((l.map ρ).zip (l.map q)).map (fun p => (p.1, ingest_cell p.1 p.2))) c =
        if c ∈ l then ingest_cell (ρ c) (q c) else Cell.na := by
  intro l
  induction l with
  | nil => simp [rowGet]
  | cons a l ih =>
    have hstep : rowGet ((((a :: l).map ρ).zip ((a :: l).map q)).map
        (fun p => (p.1, ingest_cell p.1 p.2))) c =
        if ρ a = c then ingest_cell (ρ a) (q a)
        else rowGet (((l.map ρ).zip (l.map q)).map (fun p => (p.1, ingest_cell p.1 p.2))) c := rfl
    rw [hstep]
    by_cases ha : a = c
    · rw [if_pos ((hρ a).mpr ha), ha, if_pos (List.mem_cons_self c l)]
    · rw [if_neg (fun h => ha ((hρ a).mp h)), ih]
      by_cases hcl : c ∈ l
      · rw [if_pos hcl, if_pos (List.mem_cons_of_mem a hcl)]
      · rw [if_neg hcl, if_neg (fun h => by
          rcases List.mem_cons.mp h with h1 | h2
          · exact ha h1.symm
          · exact hcl h2)]

/-- The exported header, being built from strip-fixed column names (or
the literal "Month"), is unchanged by the re-ingestion header strip. -/
theorem exportHeader_trim (df : DataFrame) (htrim : ∀ c ∈ df.cols, stripName c = c) :
    ((exportSrc df.cols).map (exportRen df.cols)).map stripName =
      (exportSrc df.cols).map (exportRen df.cols) := by
  have hsub : ∀ a ∈ exportSrc df.cols, a ∈ df.cols := by
    intro a ha
    unfold exportSrc at ha
    split at ha
    · exact (List.mem_filter.mp ha).1
    · exact ha
  have hfix : ∀ x ∈ (exportSrc df.cols).map (exportRen df.cols), stripName x = id x := by
    intro x hx
    obtain ⟨a, ha, rfl⟩ := List.mem_map.mp hx
    unfold exportRen
    split
    · split
      · decide
      · exact htrim a (hsub a ha)
    · exact htrim a (hsub a ha)
  rw [List.map_congr_left hfix, List.map_id]

/-- A measure column is neither `Month` nor `MonthName`. -/
theorem numeric_not_month {c : String} (hc : c ∈ numeric_cols) :
    c ≠ "Month" ∧ c ≠ "MonthName" := by
  unfold numeric_cols at hc
  simp only [List.mem_cons, List.not_mem_nil, or_false] at hc
  rcases hc with rfl | rfl | rfl <;> exact ⟨by decide, by decide⟩

/-- C9 counterexample: a legitimate filtered Dataset — one row, filtered
down to zero rows — whose export re-ingests to no Dataset at all: the
memory pass divides `num_unique` by `len(df) = 0` on the object column
`Brand`, the catch-all `except` fires, and `load_data_from_upload`
returns `None`, so no row count or sums are yielded. -/
theorem export_reingest_counterexample :
    load_data_from_table (export_to_csv (filter_data
      (some ⟨["Brand", "Amount_(BDT)"],
        [[("Brand", Cell.str "A"), ("Amount_(BDT)", Cell.num 5)]]⟩)
      [("Brand", [Cell.str "B"])])) = none := by
  decide

/-- C9 (amended): for a frame whose measure cells are numeric (the state
of every ingested, filtered frame), with at least one row, exporting to
the delimited format — `Month` replaced by `MonthName` when both exist —
and re-ingesting yields a frame with the same row count and the same sum
for every present measure column; but for a zero-row frame with any
non-measure column (other than the swapped `Month`/`MonthName` pair),
re-ingestion returns no Dataset at all. -/
theorem export_reingest_roundtrip (df : DataFrame)
    (htrim : ∀ c ∈ df.cols, stripName c = c)
    (hnum : ∀ r ∈ df.rows, ∀ c ∈ numeric_cols, c ∈ df.cols → (rowGet r c).isNum = true) :
    (df.rows ≠ [] →
      ∃ out, load_data_from_table (export_to_csv df) = some out ∧
        out.rows.length = df.rows.length ∧
        ∀ c ∈ numeric_cols, c ∈ df.cols → sumCol out c = sumCol df c) ∧
    (df.rows = [] → ∀ c ∈ df.cols, c ∉ numeric_cols → c ≠ "Month" → c ≠ "MonthName" →
      load_data_from_table (export_to_csv df) = none) := by
  constructor
  · intro hnem
    have hlines : (export_to_csv df).lines ≠ [] := by
      simp only [export_to_csv]
      exact fun h => hnem (List.map_eq_nil_iff.mp h)
    unfold load_data_from_table
    rw [if_neg (fun hand => hlines hand.1)]
    refine ⟨_, rfl, ?_, ?_⟩
    · simp only [export_to_csv, List.length_map]
    · intro c hc hcol
      obtain ⟨hm1, hm2⟩ := numeric_not_month hc
      have hsrc : c ∈ exportSrc df.cols := by
        unfold exportSrc
        split
        · exact List.mem_filter.mpr ⟨hcol, by simp [hm1]⟩
        · exact hcol
      have hiff : ∀ a, exportRen df.cols a = c ↔ a = c := by
        intro a
        unfold exportRen
        split
        · constructor
          · intro h
            split at h
            · exact absurd h.symm hm1
            · exact h
          · intro h
            rw [h, if_neg hm2]
        · exact Iff.rfl
      have hA : (exportSrc df.cols).map (stripName ∘ exportRen df.cols) =
          (exportSrc df.cols).map (exportRen df.cols) := by
        rw [← List.map_map]
        exact exportHeader_trim df htrim
      have hren : exportRen df.cols c = c := (hiff c).mpr rfl
      unfold sumCol
      simp only [export_to_csv, List.map_map]
      refine congrArg List.sum (List.map_congr_left ?_)
      intro r hr
      simp only [Function.comp_apply]
      have hisnum := hnum r hr c hc hcol
      cases hval : rowGet r c with
      | str s => rw [hval] at hisnum; simp [Cell.isNum] at hisnum
      | na => rw [hval] at hisnum; simp [Cell.isNum] at hisnum
      | num n =>
        rw [hA, rowGet_zip_build (exportRen df.cols) (fun a => renderCell (rowGet r a)) c hiff
            (exportSrc df.cols), if_pos hsrc, hren, hval]
        rw [show renderCell (Cell.num n) = renderInt n from rfl, ingest_cell_renderInt c hc n]
  · intro h0 c hc hnc hcM hcMN
    have hsrc2 : c ∈ exportSrc df.cols := by
      unfold exportSrc
      split
      · exact List.mem_filter.mpr ⟨hc, by simp [hcM]⟩
      · exact hc
    have hren2 : exportRen df.cols c = c := by
      unfold exportRen
      split <;> simp [hcMN]
    have hcond : (export_to_csv df).lines = [] ∧
        ∃ x ∈ (export_to_csv df).header.map stripName, x ∉ numeric_cols := by
      constructor
      · simp [export_to_csv, h0]
      · refine ⟨c, ?_, hnc⟩
        simp only [export_to_csv]
        refine List.mem_map.mpr ⟨exportRen df.cols c, List.mem_map.mpr ⟨c, hsrc2, rfl⟩, ?_⟩
        rw [hren2]
        exact htrim c hc
    unfold load_data_from_table
    rw [if_pos hcond]

/-- C9 witness: a two-row frame with measure column `Amount_(BDT)` keeps
its row count and its measure sum across export and re-ingestion, and a
zero-row frame with the text column `Brand` re-ingests to `none`. -/
theorem export_reingest_roundtrip_witness :
    (∃ out, load_data_from_table (export_to_csv
      ⟨["Brand", "Amount_(BDT)"],
        [[("Brand", Cell.str "A"), ("Amount_(BDT)", Cell.num 100)],
         [("Brand", Cell.str "B"), ("Amount_(BDT)", Cell.num (-5))]]⟩) = some out ∧
      out.rows.length =
        (⟨["Brand", "Amount_(BDT)"],
          [[("Brand", Cell.str "A"), ("Amount_(BDT)", Cell.num 100)],
           [("Brand", Cell.str "B"), ("Amount_(BDT)", Cell.num (-5))]]⟩ : DataFrame).rows.length ∧
      ∀ c ∈ numeric_cols,
        c ∈ (⟨["Brand", "Amount_(BDT)"],
          [[("Brand", Cell.str "A"), ("Amount_(BDT)", Cell.num 100)],
           [("Brand", Cell.str "B"), ("Amount_(BDT)", Cell.num (-5))]]⟩ : DataFrame).cols →
        sumCol out c =
          sumCol ⟨["Brand", "Amount_(BDT)"],
            [[("Brand", Cell.str "A"), ("Amount_(BDT)", Cell.num 100)],
             [("Brand", Cell.str "B"), ("Amount_(BDT)", Cell.num (-5))]]⟩ c) ∧
    load_data_from_table (export_to_csv (⟨["Brand", "Amount_(BDT)"], []⟩ : DataFrame)) = none :=
  ⟨(export_reingest_roundtrip
      ⟨["Brand", "Amount_(BDT)"],
        [[("Brand", Cell.str "A"), ("Amount_(BDT)", Cell.num 100)],
         [("Brand", Cell.str "B"), ("Amount_(BDT)", Cell.num (-5))]]⟩
      (by decide) (by decide)).1 (by decide),
    (export_reingest_roundtrip (⟨["Brand", "Amount_(BDT)"], []⟩ : DataFrame)
      (by decide) (by decide)).2 rfl "Brand" (by decide) (by decide) (by decide) (by decide)⟩
